import Mathlib

/-!
# Verification of the Chinook chat-agent backend

Shallow embedding of the repository's Python code:

* `src/utils/sql_utils.py` — the name validator `customer_exists`;
* `src/agent.py` — the `execute_sql` tool, the `update_user_name` tool and
  the `require_valid_name` gating middleware;
* `src/fastapi_backend.py` — `generate_thread_title`,
  `extract_message_content`, the thread registry helpers, `list_threads`
  and the `chat` endpoint.

Python strings are modelled as `List Char`, SQLite timestamps as `Nat`,
and fallible calls into the database driver as `Except`-valued inputs.
All definitions are computable so that concrete runs can be checked by
`decide`.
-/

namespace Chinook

/-- Python `str` values are modelled as lists of characters. -/
abbrev Str := List Char

/-! ## `src/utils/sql_utils.py` — the name validator -/

/-- Helper for `pyTitle`: the Boolean records whether the previous
character was alphabetic (Python: "cased"). -/
def pyTitleAux : Bool → List Char → List Char
  | _, [] => []
  | prevCased, c :: cs =>
    if c.isAlpha then
      (if prevCased then c.toLower else c.toUpper) :: pyTitleAux true cs
    else
      c :: pyTitleAux false cs

/-- Model of Python `str.title()`: the first letter of every maximal
alphabetic run is uppercased and the rest of the run lowercased. -/
def pyTitle (s : Str) : Str := pyTitleAux false s

/-- The `Customer` table is modelled by the list of its
`(FirstName, LastName)` column pairs. -/
abbrev CustomerTable := List (Str × Str)

/-- The rows of the `Customer` table matched by the `WHERE` clause of the
query issued by `customer_exists`:
`FirstName = first_name.title() AND LastName = last_name.title()`. -/
def matchingCustomers (customer : CustomerTable) (first_name last_name : Str) :
    List (Str × Str) :=
  customer.filter (fun r => r.1 = pyTitle first_name ∧ r.2 = pyTitle last_name)

/-- Value of the SQL `EXISTS (SELECT 1 FROM Customer WHERE ...)`
expression computed by the query in `customer_exists`: `1` when at least
one row matches, `0` otherwise. -/
def existsQueryValue (customer : CustomerTable) (first_name last_name : Str) : Nat :=
  if (matchingCustomers customer first_name last_name).isEmpty then 0 else 1

/-- `customer_exists` from `src/utils/sql_utils.py`, run against a concrete
table: the query computes the SQL `EXISTS` value and the Python code
returns `False if bool_result==0 else True`. -/
def customer_exists (customer : CustomerTable) (first_name last_name : Str) : Bool :=
  let bool_result := existsQueryValue customer first_name last_name
  if bool_result == 0 then false else true

/-- `customer_exists` over a fallible lookup.  The Python body is
`res = ast.literal_eval(db.run(query)); bool_result = res[0][0];
return False if bool_result==0 else True` with no exception handler, so in
the `Except` embedding any failure of `db.run` (or of the subsequent
parsing/indexing) propagates to the caller.  `lookup` is the combined
result of that pipeline, producing the integer value of the SQL `EXISTS`
expression on success. -/
def customer_existsE (lookup : Except Str Nat) : Except Str Bool := do
  let bool_result ← lookup
  pure (if bool_result == 0 then false else true)

/-! ## `src/agent.py` — the `execute_sql` tool -/

/-- `execute_sql` from `src/agent.py`.  `dbRun` models the
`SQLDatabase.run` collaborator: it returns the stringified row-set or
fails.  The Python body wraps the call in `try/except` and returns
`f"Error: {e}"` on failure. -/
def execute_sql (dbRun : Str → Except Str Str) (query : Str) : Str :=
  match dbRun query with
  | .ok rows => rows
  | .error e => "Error: ".data ++ e

/-! ## `src/fastapi_backend.py` — thread-title generation -/

/-- The characters removed by Python `str.strip()`. -/
def isPySpace (c : Char) : Bool :=
  c == ' ' || c == '\t' || c == '\n' || c == '\r' || c == '\x0b' || c == '\x0c'

/-- Model of Python `str.strip()`: whitespace removed from both ends. -/
def pyStrip (s : Str) : Str :=
  ((s.dropWhile isPySpace).reverse.dropWhile isPySpace).reverse

/-- `generate_thread_title` from `src/fastapi_backend.py`: strip, truncate
to `47` characters plus `"..."` when longer than `50`, capitalize the
first letter (`title[0].upper() + title[1:]` when the length exceeds `1`,
else `title.upper()`), and fall back to `"New Conversation"` when the
stripped message is empty (`title or "New Conversation"`). -/
def generate_thread_title (first_message : Str) : Str :=
  let title := pyStrip first_message
  let title := if 50 < title.length then title.take 47 ++ "...".data else title
  let title :=
    if title ≠ [] then
      if 1 < title.length then (title.take 1).map Char.toUpper ++ title.drop 1
      else title.map Char.toUpper
    else title
  if title ≠ [] then title else "New Conversation".data

/-- The tail of `generate_thread_title` after the initial strip, stated
over an arbitrary already-stripped input; `generate_thread_title s`
equals `titleOfStripped (pyStrip s)` definitionally
(`generate_thread_title_eq`). -/
def titleOfStripped (t : Str) : Str :=
  let title := if 50 < t.length then t.take 47 ++ "...".data else t
  let title :=
    if title ≠ [] then
      if 1 < title.length then (title.take 1).map Char.toUpper ++ title.drop 1
      else title.map Char.toUpper
    else title
  if title ≠ [] then title else "New Conversation".data

/-! ## `src/fastapi_backend.py` — thread registry -/

/-- Roles of LangChain messages as far as the registry distinguishes
them. -/
inductive Role where
  | user
  | assistant
  | tool
  deriving DecidableEq

/-- A message stored in a thread's trace. -/
structure Msg where
  role : Role
  content : Str
  deriving DecidableEq

/-- One value of the `thread_registry` dict:
`{"created_at": ..., "last_activity": ..., "title": ..., "messages": ...}`.
Timestamps are modelled as `Nat`. -/
structure ThreadEntry where
  created_at : Nat
  last_activity : Nat
  title : Str
  messages : List Msg
  deriving DecidableEq

/-- The `thread_registry` dict, as an insertion-ordered association list
with unique keys (Python `dict` semantics). -/
abbrev Registry := List (Str × ThreadEntry)

/-- Python `thread_registry.get(thread_id)` / `thread_id in thread_registry`. -/
def registryFind : Registry → Str → Option ThreadEntry
  | [], _ => none
  | (k, v) :: rest, tid => if k = tid then some v else registryFind rest tid

/-- Python `thread_registry[thread_id] = entry`: overwriting keeps the
key's position, a new key is appended at the end. -/
def registrySet : Registry → Str → ThreadEntry → Registry
  | [], tid, e => [(tid, e)]
  | (k, v) :: rest, tid, e =>
      if k = tid then (k, e) :: rest else (k, v) :: registrySet rest tid e

/-- `update_thread_registry` from `src/fastapi_backend.py`.  When the id
is absent or `is_new` is set, a fresh entry is written (`title or
"New Conversation"`, `messages or []`); otherwise `last_activity` is
refreshed, the title is replaced only when a truthy (nonempty) title is
supplied, and the message trace is replaced only when `messages` is not
`None`. -/
def update_thread_registry (reg : Registry) (now : Nat) (thread_id : Str)
    (title : Option Str) (is_new : Bool) (messages : Option (List Msg)) : Registry :=
  match registryFind reg thread_id, is_new with
  | some e, false =>
      registrySet reg thread_id
        { e with
          last_activity := now
          title :=
            match title with
            | some t => if t.isEmpty then e.title else t
            | none => e.title
          messages :=
            match messages with
            | some ms => ms
            | none => e.messages }
  | _, _ =>
      registrySet reg thread_id
        { created_at := now
          last_activity := now
          title :=
            match title with
            | some t => if t.isEmpty then "New Conversation".data else t
            | none => "New Conversation".data
          messages :=
            match messages with
            | some ms => ms
            | none => [] }

/-! ## `src/fastapi_backend.py` — `GET /threads` -/

/-- Stable insertion step for Python `sorted(..., key=key, reverse=True)`:
`x` is placed before the first element whose key is at most `key x`, so
elements with equal keys keep their original relative order. -/
def insertDescBy {α : Type} (key : α → Nat) (x : α) : List α → List α
  | [] => [x]
  | y :: ys => if key y ≤ key x then x :: y :: ys else y :: insertDescBy key x ys

/-- Model of Python `sorted(l, key=key, reverse=True)`: a stable sort in
descending key order. -/
def sortDescBy {α : Type} (key : α → Nat) (l : List α) : List α :=
  l.foldr (insertDescBy key) []

/-- The sort key used by `list_threads`:
`thread_registry[tid].get("last_activity", datetime.min)`, with
`datetime.min` modelled as `0`. -/
def lastActivityKey (reg : Registry) (tid : Str) : Nat :=
  match registryFind reg tid with
  | some e => e.last_activity
  | none => 0

/-- The payload of the `ThreadListResponse`, with `threads` reduced to
the ordered list of thread ids (each `ThreadInfo` carries its id). -/
structure ThreadListResult where
  threads : List Str
  total : Nat
  limit : Nat
  offset : Nat
  deriving DecidableEq

/-- `list_threads` from `src/fastapi_backend.py`: all registry keys,
sorted by last activity (most recent first), sliced
`[offset : offset + limit]`, with `total` the full registry size. -/
def list_threads (reg : Registry) (limit offset : Nat) : ThreadListResult :=
  let all_threads := reg.map Prod.fst
  let sorted_threads := sortDescBy (lastActivityKey reg) all_threads
  let paginated_threads := (sorted_threads.drop offset).take limit
  { threads := paginated_threads
    total := all_threads.length
    limit := limit
    offset := offset }

/-! ## `src/fastapi_backend.py` — the `POST /chat` endpoint -/

/-- The `RuntimeContext` dataclass from `src/agent.py`; the database
handle is the `Customer` table it serves to the name validator. -/
structure RuntimeContext where
  db : CustomerTable
  user_first_name : Str
  user_last_name : Str
  has_valid_name : Bool
  deriving DecidableEq

/-- `get_default_context` from `src/fastapi_backend.py`. -/
def get_default_context (db : CustomerTable) : RuntimeContext :=
  { db := db
    user_first_name := []
    user_last_name := []
    has_valid_name := false }

/-- The body of a `POST /chat` request. -/
structure ChatRequest where
  message : Str
  thread_id : Option Str
  deriving DecidableEq

/-- `request.thread_id or str(uuid.uuid4())` with Python truthiness: a
missing or empty id is replaced by the fresh UUID `freshId`. -/
def resolveThreadId (request : ChatRequest) (freshId : Str) : Str :=
  match request.thread_id with
  | some t => if t.isEmpty then freshId else t
  | none => freshId

/-- Behaviour of the 30-second-bounded model-invocation step of `chat`:
it times out (`asyncio.TimeoutError`), returns the turn's full message
trace, raises a `ValueError`, or raises some other exception. -/
inductive AgentOutcome where
  | timeout
  | ok (messages : List Msg)
  | valueError (e : Str)
  | failure (e : Str)
  deriving DecidableEq

/-- Observable result of one `POST /chat` request: the HTTP status, the
registry afterwards, and the runtime context passed to the invocation
loop. -/
structure ChatOutput where
  status : Nat
  registry : Registry
  contextPassed : RuntimeContext
  deriving DecidableEq

/-- The `chat` endpoint from `src/fastapi_backend.py`, with the external
model invocation abstracted into `outcome`.  Before the invocation it
resolves the thread id, builds the default context, and performs the
registry bookkeeping (fresh entry with generated title for a new id,
`last_activity` refresh otherwise).  On success it stores the returned
trace with a second registry update and returns 200; on timeout it
raises HTTP 504; a `ValueError` gives 400 and any other invocation
failure 500, in all three cases without touching the registry again. -/
def chat (db : CustomerTable) (reg : Registry) (request : ChatRequest)
    (freshId : Str) (now now2 : Nat) (outcome : AgentOutcome) : ChatOutput :=
  let thread_id := resolveThreadId request freshId
  let context := get_default_context db
  let is_new_thread := (registryFind reg thread_id).isNone
  let reg1 :=
    if is_new_thread then
      update_thread_registry reg now thread_id
        (some (generate_thread_title request.message)) true none
    else
      update_thread_registry reg now thread_id none false none
  match outcome with
  | .timeout => { status := 504, registry := reg1, contextPassed := context }
  | .ok msgs =>
      { status := 200
        registry := update_thread_registry reg1 now2 thread_id none false (some msgs)
        contextPassed := context }
  | .valueError _ => { status := 400, registry := reg1, contextPassed := context }
  | .failure _ => { status := 500, registry := reg1, contextPassed := context }

/-! ## `src/agent.py` — the gate middleware and the name-update tool -/

/-- The two tools registered with `create_agent`. -/
inductive Tool where
  | execute_sql
  | update_user_name
  deriving DecidableEq

/-- The request handed to the model invocation: tool set, system prompt
and the ambient runtime context. -/
structure ModelRequest where
  tools : List Tool
  system_prompt : Str
  context : RuntimeContext
  deriving DecidableEq

/-- The fixed directive installed by `require_valid_name` while the gate
is closed (text from `src/agent.py`). -/
def nameCollectionDirective : Str :=
  ("You must first collect the user\x27s first and last name that exist in the Chinook Customer table. " ++
   "Ask for their full name if missing or invalid. When a name is provided, call the update_user_name tool " ++
   "with parsed first_name and last_name. Do not answer any other questions and do not call any other tools " ++
   "until the name is validated. Be concise and polite.").data

/-- `require_valid_name` from `src/agent.py`: while
`runtime.context.has_valid_name` is false, the tool set is restricted to
`update_user_name` and the system prompt is replaced by the fixed
directive; otherwise the request is passed through unchanged. -/
def require_valid_name (request : ModelRequest) : ModelRequest :=
  if !request.context.has_valid_name then
    { request with
      tools := [Tool.update_user_name]
      system_prompt := nameCollectionDirective }
  else request

/-- The per-thread agent state tracked through the checkpointer: the
keys touched by `update_user_name`'s `Command(update=...)`. -/
structure AgentState where
  user_first_name : Str
  user_last_name : Str
  has_valid_name : Bool
  messages : List Msg
  deriving DecidableEq

/-- `update_user_name` from `src/agent.py`: when the supplied pair
passes `customer_exists`, the state receives the new names, the gate
flag is set, and a confirming `ToolMessage` is appended; otherwise only
a rejecting `ToolMessage` is appended and the rest of the state —
including the gate flag — is untouched. -/
def update_user_name (customer : CustomerTable) (s : AgentState)
    (new_first_name new_last_name : Str) : AgentState :=
  if customer_exists customer new_first_name new_last_name then
    { s with
      user_first_name := new_first_name
      user_last_name := new_last_name
      has_valid_name := true
      messages := s.messages ++
        [⟨Role.tool, "Updated user name to ".data ++ new_first_name ++
            " ".data ++ new_last_name ++ ".".data⟩] }
  else
    { s with
      messages := s.messages ++
        [⟨Role.tool, pyTitle new_first_name ++ " ".data ++ pyTitle new_last_name ++
            (" is not a valid name in the database. Ask the user for a name " ++
             "that actually exists in the database. Dont call the user ").data ++
            new_first_name⟩] }

/-- What one conversational turn does to the thread state: either the
model calls `update_user_name` with some pair, or it performs no
state-updating tool call (plain answers and `execute_sql` calls leave
the gate state unchanged). -/
inductive TurnAction where
  | updateName (new_first_name new_last_name : Str)
  | other
  deriving DecidableEq

/-- State transition of one turn. -/
def stepTurn (customer : CustomerTable) (s : AgentState) : TurnAction → AgentState
  | .updateName f l => update_user_name customer s f l
  | .other => s

/-- The agent state a fresh thread starts from: the fields seeded from
the runtime context handed to the invocation, with an empty trace. -/
def initialAgentState (context : RuntimeContext) : AgentState :=
  { user_first_name := context.user_first_name
    user_last_name := context.user_last_name
    has_valid_name := context.has_valid_name
    messages := [] }

/-- Modelled from the spec: the per-turn `ModelRequest` assembled by the
external agent framework before the gate hook runs.  It carries the full
registered tool list (`create_agent(tools=[execute_sql,
update_user_name], ...)`), the templated system prompt `prompt0`
produced by the `dynamic_system_prompt` hook (its text is irrelevant
here, so it is quantified over), and the ambient context holding the
thread's current gate flag — per the spec and the transcript in
`src/agent.py`, `Command` updates to the gate flag are persisted in the
thread state and visible to the gate hook on later turns. -/
def turnRequest (db : CustomerTable) (prompt0 : Str) (s : AgentState) : ModelRequest :=
  { tools := [Tool.execute_sql, Tool.update_user_name]
    system_prompt := prompt0
    context :=
      { db := db
        user_first_name := s.user_first_name
        user_last_name := s.user_last_name
        has_valid_name := s.has_valid_name } }

/-! ## `src/fastapi_backend.py` — `extract_message_content` -/

/-- Python values as far as `extract_message_content` inspects them:
`None`, strings, lists, dicts with string keys, and anything else
(carrying its `str()` rendering). -/
inductive PyVal where
  | pyNone
  | pyStr (s : Str)
  | pyList (items : List PyVal)
  | pyDict (entries : List (Str × PyVal))
  | pyOther (rep : Str)

mutual

/-- Model of the Python builtin `str()`.  The exact text of the
composite renderings is not relied upon by any theorem; only that the
function is total. -/
def pyStrFn : PyVal → Str
  | .pyNone => "None".data
  | .pyStr s => s
  | .pyOther rep => rep
  | .pyList items => "[".data ++ pyStrList items ++ "]".data
  | .pyDict entries => "\x7b".data ++ pyStrEntries entries ++ "\x7d".data

/-- `str()` of a list's elements, comma-separated. -/
def pyStrList : List PyVal → Str
  | [] => []
  | [x] => pyStrFn x
  | x :: xs => pyStrFn x ++ ", ".data ++ pyStrList xs

/-- `str()` of a dict's entries, comma-separated. -/
def pyStrEntries : List (Str × PyVal) → Str
  | [] => []
  | [(k, v)] => k ++ ": ".data ++ pyStrFn v
  | (k, v) :: rest => k ++ ": ".data ++ pyStrFn v ++ ", ".data ++ pyStrEntries rest

end

/-- Python `item.get(key)` / `key in item` on a dict. -/
def dictGet : List (Str × PyVal) → Str → Option PyVal
  | [], _ => none
  | (k, v) :: rest, key => if k = key then some v else dictGet rest key

/-- The per-item branch of `extract_message_content`'s list loop: a dict
contributes `str(item["text"])` when it has a `"text"` key (the `elif
item.get("type") == "text" and "text" in item` branch is unreachable,
since it requires a `"text"` key the first branch already caught) and
`str(item)` otherwise; a string contributes itself; anything else
contributes `str(item)`. -/
def extractPart (item : PyVal) : Str :=
  match item with
  | .pyDict es =>
      match dictGet es "text".data with
      | some v => pyStrFn v
      | none => pyStrFn (.pyDict es)
  | .pyStr s => s
  | other => pyStrFn other

/-- Python `" ".join(parts)`. -/
def joinSpace : List Str → Str
  | [] => []
  | [x] => x
  | x :: xs => x ++ " ".data ++ joinSpace xs

/-- `extract_message_content` from `src/fastapi_backend.py`.  The
argument models `getattr(message, "content", None)` applied to a
possibly-`None` message: `Option.none` is a `None` message, and
`some PyVal.pyNone` a message whose `content` attribute is absent or
`None`. -/
def extract_message_content (message : Option PyVal) : Str :=
  match message with
  | none => "No response generated".data
  | some content =>
    match content with
    | .pyNone => "No response generated".data
    | .pyStr s => s
    | .pyList items =>
        let text_parts := items.map extractPart
        if text_parts.isEmpty then "No response generated".data
        else joinSpace text_parts
    | c => pyStrFn c

/-! ## Theorems -/

/-- Looking up the key just written returns the written entry. -/
theorem registryFind_set_self (reg : Registry) (tid : Str) (e : ThreadEntry) :
    registryFind (registrySet reg tid e) tid = some e := by
  induction reg with
  | nil => simp [registrySet, registryFind]
  | cons kv rest ih =>
      obtain ⟨k, v⟩ := kv
      by_cases hk : k = tid
      · subst hk
        simp [registrySet, registryFind]
      · simp [registrySet, registryFind, hk, ih]

/-- Writing one key leaves every other key's binding unchanged. -/
theorem registryFind_set_ne (reg : Registry) (tid t : Str) (e : ThreadEntry)
    (h : t ≠ tid) :
    registryFind (registrySet reg tid e) t = registryFind reg t := by
  induction reg with
  | nil =>
      simp only [registrySet, registryFind]
      rw [if_neg (fun hh => h hh.symm)]
  | cons kv rest ih =>
      obtain ⟨k, v⟩ := kv
      by_cases hk : k = tid
      · subst hk
        simp only [registrySet, if_pos rfl, registryFind]
        rw [if_neg (fun hh => h hh.symm), if_neg (fun hh => h hh.symm)]
      · simp only [registrySet, if_neg hk, registryFind]
        by_cases hkt : k = t
        · simp [hkt]
        · simp [hkt, ih]

/-- Refreshing an existing entry only touches `last_activity`: the
no-title, no-messages update of `update_thread_registry`. -/
theorem update_thread_registry_existing (reg : Registry) (now : Nat) (tid : Str)
    (e : ThreadEntry) (hf : registryFind reg tid = some e) :
    update_thread_registry reg now tid none false none =
      registrySet reg tid { e with last_activity := now } := by
  simp only [update_thread_registry, hf]

/-- Creating an entry writes the generated title (with the
`title or "New Conversation"` fallback) and an empty trace. -/
theorem update_thread_registry_new (reg : Registry) (now : Nat) (tid : Str)
    (title : Str) (hf : registryFind reg tid = none) :
    update_thread_registry reg now tid (some title) true none =
      registrySet reg tid
        { created_at := now
          last_activity := now
          title := if title.isEmpty then "New Conversation".data else title
          messages := [] } := by
  simp only [update_thread_registry, hf]

/-- Inserting into the stable descending sort is a permutation. -/
theorem insertDescBy_perm {α : Type} (key : α → Nat) (x : α) (l : List α) :
    (insertDescBy key x l).Perm (x :: l) := by
  induction l with
  | nil => exact List.Perm.refl _
  | cons y ys ih =>
      by_cases h : key y ≤ key x
      · simp [insertDescBy, h]
      · simp only [insertDescBy, if_neg h]
        exact (ih.cons y).trans (List.Perm.swap x y ys)

/-- The stable descending sort permutes its input. -/
theorem sortDescBy_perm {α : Type} (key : α → Nat) (l : List α) :
    (sortDescBy key l).Perm l := by
  induction l with
  | nil => exact List.Perm.refl _
  | cons x xs ih =>
      exact (insertDescBy_perm key x (sortDescBy key xs)).trans (ih.cons x)

/-- Inserting into a descending-sorted list keeps it sorted. -/
theorem pairwise_insertDescBy {α : Type} (key : α → Nat) (x : α) (l : List α)
    (h : l.Pairwise (fun a b => key b ≤ key a)) :
    (insertDescBy key x l).Pairwise (fun a b => key b ≤ key a) := by
  induction l with
  | nil => simp [insertDescBy]
  | cons y ys ih =>
      rcases List.pairwise_cons.mp h with ⟨hy, hys⟩
      by_cases hxy : key y ≤ key x
      · simp only [insertDescBy, if_pos hxy]
        refine List.pairwise_cons.mpr ⟨?_, h⟩
        intro z hz
        rcases List.mem_cons.mp hz with rfl | hz'
        · exact hxy
        · exact le_trans (hy z hz') hxy
      · simp only [insertDescBy, if_neg hxy]
        refine List.pairwise_cons.mpr ⟨?_, ih hys⟩
        intro z hz
        have hz' : z = x ∨ z ∈ ys := by
          have := (insertDescBy_perm key x ys).mem_iff.mp hz
          simpa [List.mem_cons] using this
        rcases hz' with rfl | hz'
        · omega
        · exact hy z hz'

/-- The output of the stable descending sort is sorted (descending). -/
theorem sortDescBy_pairwise {α : Type} (key : α → Nat) (l : List α) :
    (sortDescBy key l).Pairwise (fun a b => key b ≤ key a) := by
  induction l with
  | nil => simp [sortDescBy]
  | cons x xs ih => exact pairwise_insertDescBy key x _ ih

/-- C8: `GET /threads` pagination is consistent — the `(L, O)` page is
exactly the `[O : O + L]` slice of the full sorted id list (the result
of listing with `limit = |registry|`, `offset = 0`); the reported total
is the full registry size for every `L` and `O`; and the full listing is
a permutation of the registry's keys, sorted by last activity in
descending order. -/
theorem list_threads_pagination_spec (reg : Registry) (limit offset : Nat) :
    (list_threads reg limit offset).threads =
      ((list_threads reg reg.length 0).threads.drop offset).take limit ∧
    (list_threads reg limit offset).total = reg.length ∧
    (sortDescBy (lastActivityKey reg) (reg.map Prod.fst)).Perm (reg.map Prod.fst) ∧
    (sortDescBy (lastActivityKey reg) (reg.map Prod.fst)).Pairwise
      (fun a b => lastActivityKey reg b ≤ lastActivityKey reg a) := by
  have hperm := sortDescBy_perm (lastActivityKey reg) (reg.map Prod.fst)
  have hlen : (sortDescBy (lastActivityKey reg) (reg.map Prod.fst)).length =
      reg.length := by
    rw [hperm.length_eq, List.length_map]
  refine ⟨?_, ?_, hperm, sortDescBy_pairwise _ _⟩
  · simp only [list_threads, List.drop_zero]
    rw [List.take_of_length_le (le_of_eq hlen)]
  · simp [list_threads]


/-- `generate_thread_title` factors through `titleOfStripped`. -/
theorem generate_thread_title_eq (s : Str) :
    generate_thread_title s = titleOfStripped (pyStrip s) := rfl

/-- Empty stripped input produces the fixed placeholder title. -/
theorem titleOfStripped_nil : titleOfStripped [] = "New Conversation".data := by
  decide

/-- A nonempty stripped input of length at most `50` is kept whole, with
its first character uppercased. -/
theorem titleOfStripped_no_trunc (c : Char) (cs : Str) (h : (c :: cs).length ≤ 50) :
    titleOfStripped (c :: cs) = Char.toUpper c :: cs := by
  cases cs with
  | nil => simp [titleOfStripped]
  | cons d ds =>
      have h50 : ¬ 50 < (c :: d :: ds).length := by omega
      simp only [titleOfStripped]
      split_ifs with h1 h2 h3 h4
      all_goals first
        | rfl
        | (exact absurd h1 h50)
        | (exfalso; simp_all)

/-- A stripped input longer than `50` characters is cut to its first `47`
characters (first one uppercased) followed by an ellipsis. -/
theorem titleOfStripped_trunc (c : Char) (cs : Str) (h : 50 < (c :: cs).length) :
    titleOfStripped (c :: cs) = (Char.toUpper c :: cs.take 46) ++ "...".data := by
  simp only [titleOfStripped]
  split_ifs with h1 h2 h3 h4
  all_goals first
    | rfl
    | (exact absurd h h1)
    | (exact absurd h1 (by omega))
    | (exfalso; simp_all)

/-- `generate_thread_title` never returns the empty string. -/
theorem generate_thread_title_ne_nil (s : Str) : generate_thread_title s ≠ [] := by
  cases hp : pyStrip s with
  | nil =>
      rw [generate_thread_title_eq, hp, titleOfStripped_nil]
      simp
  | cons c cs =>
      by_cases h50 : 50 < (c :: cs).length
      · rw [generate_thread_title_eq, hp, titleOfStripped_trunc c cs h50]
        simp
      · push_neg at h50
        rw [generate_thread_title_eq, hp, titleOfStripped_no_trunc c cs h50]
        simp

/-- C7: thread-title generation is a pure function of the first message
(determinism is by construction: `generate_thread_title` is a Lean
function of its argument alone).  Whitespace-only input yields the fixed
placeholder; otherwise the title is at most `50` characters, starts with
the uppercased first character of the stripped message, carries a
trailing ellipsis after `47` kept characters exactly when the stripped
message exceeds `50` characters, and is otherwise the stripped message
unshortened. -/
theorem generate_thread_title_spec (first_message : Str) :
    (pyStrip first_message = [] →
      generate_thread_title first_message = "New Conversation".data) ∧
    (pyStrip first_message ≠ [] →
      (generate_thread_title first_message).length ≤ 50 ∧
      (generate_thread_title first_message).head? =
        (pyStrip first_message).head?.map Char.toUpper ∧
      (50 < (pyStrip first_message).length →
        ∃ p : Str, p.length = 47 ∧
          generate_thread_title first_message = p ++ "...".data) ∧
      ((pyStrip first_message).length ≤ 50 →
        (generate_thread_title first_message).length = (pyStrip first_message).length)) := by
  cases hp : pyStrip first_message with
  | nil =>
      refine ⟨fun _ => ?_, fun hne => absurd rfl hne⟩
      rw [generate_thread_title_eq, hp]
      exact titleOfStripped_nil
  | cons c cs =>
      refine ⟨fun hnil => absurd hnil (List.cons_ne_nil c cs), fun _ => ?_⟩
      by_cases h50 : 50 < (c :: cs).length
      · have ht : generate_thread_title first_message =
            (Char.toUpper c :: cs.take 46) ++ "...".data := by
          rw [generate_thread_title_eq, hp]
          exact titleOfStripped_trunc c cs h50
        have hlen : (c :: cs).length = cs.length + 1 := by simp
        have hcs46 : (cs.take 46).length = 46 := by
          rw [List.length_take]; omega
        have h3 : ("...".data : Str).length = 3 := rfl
        refine ⟨?_, ?_, ?_, ?_⟩
        · rw [ht]; simp [hcs46, h3]
        · rw [ht]; rfl
        · intro _
          exact ⟨Char.toUpper c :: cs.take 46, by simp [hcs46], ht⟩
        · intro hle; omega
      · push_neg at h50
        have ht : generate_thread_title first_message = Char.toUpper c :: cs := by
          rw [generate_thread_title_eq, hp]
          exact titleOfStripped_no_trunc c cs h50
        refine ⟨?_, ?_, ?_, ?_⟩
        · rw [ht]; simpa using h50
        · rw [ht]; rfl
        · intro hgt; exact absurd hgt (not_lt.mpr h50)
        · intro _; rw [ht]; simp

/-- Witness for `generate_thread_title_spec` at a concrete message. -/
theorem generate_thread_title_spec_witness :
    pyStrip "  hello  ".data ≠ [] ∧
    (generate_thread_title "  hello  ".data).length ≤ 50 :=
  ⟨by decide, ((generate_thread_title_spec "  hello  ".data).2 (by decide)).1⟩

/-- C1, counterexample: a timed-out `POST /chat` with a fresh thread id
does return HTTP 504, but the registry is *not* left as it was — an
entry for the new id has been created by the pre-invocation bookkeeping,
refuting "no entry is created for a new id". -/
theorem chat_timeout_unmodified_cex :
    (chat [] [] ⟨"hello".data, none⟩ "t1".data 5 9 .timeout).status = 504 ∧
    (chat [] [] ⟨"hello".data, none⟩ "t1".data 5 9 .timeout).registry ≠ [] := by
  decide

/-- C1, amended: on timeout `POST /chat` returns HTTP 504 and writes no
message trace: an existing entry keeps its creation time, title and
messages and only its `last_activity` is refreshed (that refresh happens
before the invocation), a fresh id receives a new entry with the
generated title and an empty trace, and every other thread's entry is
untouched. -/
theorem chat_timeout_spec (db : CustomerTable) (reg : Registry)
    (request : ChatRequest) (freshId : Str) (now now2 : Nat) :
    (chat db reg request freshId now now2 .timeout).status = 504 ∧
    (∀ e, registryFind reg (resolveThreadId request freshId) = some e →
      registryFind (chat db reg request freshId now now2 .timeout).registry
          (resolveThreadId request freshId) =
        some { e with last_activity := now }) ∧
    (registryFind reg (resolveThreadId request freshId) = none →
      registryFind (chat db reg request freshId now now2 .timeout).registry
          (resolveThreadId request freshId) =
        some { created_at := now
               last_activity := now
               title := generate_thread_title request.message
               messages := [] }) ∧
    (∀ t, t ≠ resolveThreadId request freshId →
      registryFind (chat db reg request freshId now now2 .timeout).registry t =
        registryFind reg t) := by
  cases hf : registryFind reg (resolveThreadId request freshId) with
  | some e =>
      have hreg : (chat db reg request freshId now now2 .timeout).registry =
          registrySet reg (resolveThreadId request freshId)
            { e with last_activity := now } := by
        simp only [chat, hf, Option.isNone_some, if_neg Bool.false_ne_true,
          update_thread_registry_existing reg now _ e hf]
      refine ⟨rfl, ?_, ?_, ?_⟩
      · intro e' he'
        injection he' with h
        subst h
        rw [hreg, registryFind_set_self]
      · intro hnone
        exact Option.noConfusion hnone
      · intro t ht
        rw [hreg, registryFind_set_ne _ _ _ _ ht]
  | none =>
      have htitle : (generate_thread_title request.message).isEmpty = false := by
        cases hg : generate_thread_title request.message with
        | nil => exact absurd hg (generate_thread_title_ne_nil request.message)
        | cons a l => rfl
      have hreg : (chat db reg request freshId now now2 .timeout).registry =
          registrySet reg (resolveThreadId request freshId)
            { created_at := now
              last_activity := now
              title := generate_thread_title request.message
              messages := [] } := by
        simp [chat, hf, update_thread_registry_new reg now _ _ hf, htitle]
      refine ⟨rfl, ?_, ?_, ?_⟩
      · intro e' he'
        exact Option.noConfusion he'
      · intro _
        rw [hreg, registryFind_set_self]
      · intro t ht
        rw [hreg, registryFind_set_ne _ _ _ _ ht]

/-- Witness for `chat_timeout_spec` at a concrete existing thread. -/
theorem chat_timeout_spec_witness :
    registryFind [("t1".data, ⟨1, 2, "T".data, []⟩)] (resolveThreadId ⟨"hi".data, some "t1".data⟩ "u".data) =
      some ⟨1, 2, "T".data, []⟩ ∧
    registryFind
        (chat [] [("t1".data, ⟨1, 2, "T".data, []⟩)] ⟨"hi".data, some "t1".data⟩
          "u".data 7 9 .timeout).registry
        (resolveThreadId ⟨"hi".data, some "t1".data⟩ "u".data) =
      some ⟨1, 7, "T".data, []⟩ :=
  ⟨by decide,
    (chat_timeout_spec [] [("t1".data, ⟨1, 2, "T".data, []⟩)]
        ⟨"hi".data, some "t1".data⟩ "u".data 7 9).2.1
      ⟨1, 2, "T".data, []⟩ (by decide)⟩

/-- C9: every `POST /chat` request hands the invocation loop a freshly
constructed default context — names empty, gate flag false — regardless
of the registry contents, the supplied thread id, and the invocation's
outcome. -/
theorem chat_default_context_spec (db : CustomerTable) (reg : Registry)
    (request : ChatRequest) (freshId : Str) (now now2 : Nat)
    (outcome : AgentOutcome) :
    (chat db reg request freshId now now2 outcome).contextPassed =
      get_default_context db ∧
    (get_default_context db).user_first_name = [] ∧
    (get_default_context db).user_last_name = [] ∧
    (get_default_context db).has_valid_name = false := by
  refine ⟨?_, rfl, rfl, rfl⟩
  cases outcome <;> rfl
/-- While every name-update attempt fails validation, folding the turns
leaves the gate flag false. -/
theorem foldl_stepTurn_flag_false (customer : CustomerTable)
    (acts : List TurnAction) :
    ∀ s : AgentState, s.has_valid_name = false →
      (∀ f l, TurnAction.updateName f l ∈ acts →
        customer_exists customer f l = false) →
      (List.foldl (stepTurn customer) s acts).has_valid_name = false := by
  induction acts with
  | nil =>
      intro s hs _
      simpa using hs
  | cons a rest ih =>
      intro s hs hfail
      have hstep : (stepTurn customer s a).has_valid_name = false := by
        cases a with
        | updateName f l =>
            have h := hfail f l (List.mem_cons_self _ _)
            simp [stepTurn, update_user_name, h, hs]
        | other => simpa [stepTurn] using hs
      have hrest : ∀ f l, TurnAction.updateName f l ∈ rest →
          customer_exists customer f l = false :=
        fun f l hm => hfail f l (List.mem_cons_of_mem _ hm)
      simpa [List.foldl_cons] using ih _ hstep hrest

/-- Once the gate flag is true, no sequence of turns clears it. -/
theorem foldl_stepTurn_flag_true (customer : CustomerTable)
    (acts : List TurnAction) :
    ∀ s : AgentState, s.has_valid_name = true →
      (List.foldl (stepTurn customer) s acts).has_valid_name = true := by
  induction acts with
  | nil =>
      intro s hs
      simpa using hs
  | cons a rest ih =>
      intro s hs
      have hstep : (stepTurn customer s a).has_valid_name = true := by
        cases a with
        | updateName f l =>
            by_cases h : customer_exists customer f l
            · simp [stepTurn, update_user_name, h]
            · simp [stepTurn, update_user_name, h, hs]
        | other => simpa [stepTurn] using hs
      simpa [List.foldl_cons] using ih _ hstep

/-- C3: within one thread the gate flag is monotonic — a fresh thread
starts with it false; one turn's flag is the old flag *or*-ed with the
success of that turn's validation attempt (so it becomes true exactly
when a pair passes `customer_exists`, and an invalid attempt leaves it
unchanged); and once true it stays true through every later turn. -/
theorem has_valid_name_monotone (db customer : CustomerTable) (s : AgentState)
    (a : TurnAction) (acts : List TurnAction) :
    (initialAgentState (get_default_context db)).has_valid_name = false ∧
    (stepTurn customer s a).has_valid_name =
      (s.has_valid_name ||
        match a with
        | .updateName f l => customer_exists customer f l
        | .other => false) ∧
    (s.has_valid_name = true →
      (List.foldl (stepTurn customer) s acts).has_valid_name = true) := by
  refine ⟨rfl, ?_, fun hs => foldl_stepTurn_flag_true customer acts s hs⟩
  cases a with
  | updateName f l =>
      by_cases h : customer_exists customer f l
      · simp [stepTurn, update_user_name, h]
      · simp [stepTurn, update_user_name, h]
  | other => simp [stepTurn]

/-- Witness for `has_valid_name_monotone`: a verified state survives an
invalid update attempt. -/
theorem has_valid_name_monotone_witness :
    (List.foldl (stepTurn []) ⟨"Frank".data, "Harris".data, true, []⟩
        [TurnAction.updateName "Zoe".data "Q".data]).has_valid_name = true :=
  (has_valid_name_monotone [] [] ⟨"Frank".data, "Harris".data, true, []⟩
      TurnAction.other [TurnAction.updateName "Zoe".data "Q".data]).2.2 rfl

/-- C2: while the gate flag is false, the request reaching the model
carries exactly the single `update_user_name` tool (never `execute_sql`)
and the fixed name-collection directive as system prompt — whatever
templated prompt the prompt hook produced; and along any run of turns
none of whose update attempts passes validation, the same restriction
holds at every later turn (after any prefix `acts1` of the run). -/
theorem require_valid_name_gate (db customer : CustomerTable) (prompt0 : Str)
    (s : AgentState) (acts1 acts2 : List TurnAction) :
    (s.has_valid_name = false →
      (require_valid_name (turnRequest db prompt0 s)).tools =
        [Tool.update_user_name] ∧
      (require_valid_name (turnRequest db prompt0 s)).system_prompt =
        nameCollectionDirective ∧
      Tool.execute_sql ∉ (require_valid_name (turnRequest db prompt0 s)).tools) ∧
    (s.has_valid_name = false →
      (∀ f l, TurnAction.updateName f l ∈ acts1 ++ acts2 →
        customer_exists customer f l = false) →
      (require_valid_name
          (turnRequest db prompt0
            (List.foldl (stepTurn customer) s acts1))).tools =
        [Tool.update_user_name] ∧
      (require_valid_name
          (turnRequest db prompt0
            (List.foldl (stepTurn customer) s acts1))).system_prompt =
        nameCollectionDirective) := by
  constructor
  · intro hs
    refine ⟨?_, ?_, ?_⟩ <;> simp [require_valid_name, turnRequest, hs]
  · intro hs hfail
    have hflag : (List.foldl (stepTurn customer) s acts1).has_valid_name = false :=
      foldl_stepTurn_flag_false customer acts1 s hs
        (fun f l hm => hfail f l (List.mem_append_left _ hm))
    exact ⟨by simp [require_valid_name, turnRequest, hflag],
           by simp [require_valid_name, turnRequest, hflag]⟩

/-- Witness for `require_valid_name_gate`: after one failed update
attempt on a fresh thread the tool set is still the single name tool. -/
theorem require_valid_name_gate_witness :
    (require_valid_name
        (turnRequest [] []
          (List.foldl (stepTurn []) (initialAgentState (get_default_context []))
            [TurnAction.updateName "Ann".data "B".data]))).tools =
      [Tool.update_user_name] :=
  ((require_valid_name_gate [] [] [] (initialAgentState (get_default_context []))
        [TurnAction.updateName "Ann".data "B".data] []).2 rfl
      (fun _ _ _ => rfl)).1

/-- C10: `extract_message_content` is total by construction (it is a
Lean function, mirroring the Python body which handles every shape) and
returns the fixed placeholder when the message is `None`, when its
`content` attribute is absent or `None`, and when the content is an
empty list; a string content is returned as-is; a nonempty list is
joined from its per-item extracted parts; any other content is its
`str()` rendering. -/
theorem extract_message_content_spec (message : Option PyVal) :
    (message = none →
      extract_message_content message = "No response generated".data) ∧
    (message = some PyVal.pyNone →
      extract_message_content message = "No response generated".data) ∧
    (∀ s, message = some (PyVal.pyStr s) → extract_message_content message = s) ∧
    (message = some (PyVal.pyList []) →
      extract_message_content message = "No response generated".data) ∧
    (∀ x xs, message = some (PyVal.pyList (x :: xs)) →
      extract_message_content message = joinSpace ((x :: xs).map extractPart)) ∧
    (∀ es, message = some (PyVal.pyDict es) →
      extract_message_content message = pyStrFn (PyVal.pyDict es)) ∧
    (∀ rep, message = some (PyVal.pyOther rep) →
      extract_message_content message = pyStrFn (PyVal.pyOther rep)) := by
  refine ⟨?_, ?_, ?_, ?_, ?_, ?_, ?_⟩ <;> intros <;> subst_vars <;> rfl

/-- Witness for `extract_message_content_spec` at a `None` message. -/
theorem extract_message_content_spec_witness :
    extract_message_content none = "No response generated".data :=
  (extract_message_content_spec none).1 rfl

/-- C4, counterexample: with two identical `("Frank","Harris")` rows in
the `Customer` table, more than one record matches, yet `customer_exists`
returns `true` — the SQL `EXISTS` test does not distinguish "exactly one"
from "at least one", so the claim "returns false when more than one record
matches" is refuted. -/
theorem customer_exists_exactly_one_cex :
    customer_exists [("Frank".data, "Harris".data), ("Frank".data, "Harris".data)]
      "frank".data "harris".data = true ∧
    (matchingCustomers [("Frank".data, "Harris".data), ("Frank".data, "Harris".data)]
      "frank".data "harris".data).length ≠ 1 := by
  decide

/-- C4, amended: `customer_exists` returns `true` iff at least one
customer record matches the title-cased name pair; in particular it
returns `false` on zero matches. -/
theorem customer_exists_iff_at_least_one (customer : CustomerTable)
    (first_name last_name : Str) :
    customer_exists customer first_name last_name = true ↔
      1 ≤ (matchingCustomers customer first_name last_name).length := by
  have h : ∀ l : List (Str × Str),
      (if ((if l.isEmpty then (0 : Nat) else 1) == 0) = true then false else true) = true
        ↔ 1 ≤ l.length := by
    intro l; cases l <;> simp
  simpa only [customer_exists, existsQueryValue] using
    h (matchingCustomers customer first_name last_name)

/-- C5, counterexample: when the underlying lookup fails, the failure
propagates out of `customer_exists` (there is no exception handler in its
body); the result is not the boolean `false` that the claim requires. -/
theorem customer_exists_never_raises_cex :
    customer_existsE (.error "database is locked".data) =
      .error "database is locked".data ∧
    (Except.error "database is locked".data : Except Str Bool) ≠ .ok false := by
  exact ⟨rfl, fun h => nomatch h⟩

/-- C5, amended: on a successful lookup `customer_exists` returns a
boolean (agreeing with the table-level model), but a lookup failure is
propagated unchanged to the caller rather than being treated as
"not found". -/
theorem customer_exists_lookup_spec (lookup : Except Str Nat) :
    (∀ e, lookup = .error e → customer_existsE lookup = .error e) ∧
    (∀ n, lookup = .ok n →
      customer_existsE lookup = .ok (if n == 0 then false else true)) ∧
    (∀ customer first_name last_name,
      customer_existsE (.ok (existsQueryValue customer first_name last_name)) =
        .ok (customer_exists customer first_name last_name)) := by
  refine ⟨?_, ?_, ?_⟩
  · intro e h; subst h; rfl
  · intro n h; subst h; rfl
  · intro customer first_name last_name; rfl

/-- Witness for `customer_exists_lookup_spec` at a concrete failing
lookup. -/
theorem customer_exists_lookup_spec_witness :
    customer_existsE (.error "no such table".data) = .error "no such table".data :=
  (customer_exists_lookup_spec (.error "no such table".data)).1 "no such table".data rfl

/-- C6: `execute_sql` is total over every behaviour of the database
runner: it returns the row-set on success, and on any failure it returns
the string `"Error: "` followed by the failure description — it never
propagates the failure. -/
theorem execute_sql_total_spec (dbRun : Str → Except Str Str) (query : Str) :
    (∃ rows, dbRun query = .ok rows ∧ execute_sql dbRun query = rows) ∨
    (∃ e, dbRun query = .error e ∧
      execute_sql dbRun query = "Error: ".data ++ e) := by
  cases h : dbRun query with
  | error e => exact Or.inr ⟨e, rfl, by simp [execute_sql, h]⟩
  | ok rows => exact Or.inl ⟨rows, rfl, by simp [execute_sql, h]⟩

end Chinook
